import Mathlib

/-!
Verification of slither's source-mapping core
(`src/slither/core/source_mapping/source_mapping.py`) against its
natural-language specification.

The Python module is shallowly embedded below: pure functions become Lean
functions, Python exceptions become an `Except` error type, machine
integers become `Nat`/`Int` (Python integers are unbounded, so no modular
arithmetic is needed), and the external collaborators (the file-index
table, the filename lookup, the dependency classifier, the source text
store and the line-index provider of `crytic_compile`) are carried in an
explicit `CompilationUnit` record.
-/

set_option maxRecDepth 4096

namespace SlitherSM

/-- `crytic_compile.utils.naming.Filename`: the four string forms of a
file path.  The default value `Filename("", "", "", "")` from
`Source.__init__` is `emptyFilename` below. -/
structure Filename where
  used : String
  relative : String
  absolute : String
  short : String
deriving DecidableEq, Repr

def emptyFilename : Filename := ⟨"", "", "", ""⟩

/-- The `Source` record (`Source.__init__`, lines 20-30).  Python's `end`
attribute is spelled `end_` because `end` is a Lean keyword.  The
`compilation_unit` back-reference is not a field: operations that read it
(`content`, `content_hash`, the line lookup) take the compilation unit as
an explicit argument instead. -/
structure Source where
  start : Nat := 0
  length : Nat := 0
  filename : Filename := emptyFilename
  is_dependency : Bool := false
  lines : List Nat := []
  starting_column : Nat := 0
  ending_column : Nat := 0
  end_ : Nat := 0
deriving DecidableEq, Repr

/-- The all-default span produced by `Source(compilation_unit)`. -/
def emptySource : Source := {}

/-- The Python exceptions the decoder can surface: `ValueError` from
`int("")`, `KeyError` from `crytic_compile.get_line_from_offset`, and
`SlitherException` (the stale-artifacts error raised by
`_compute_line`). -/
inductive PyError where
  | valueError
  | keyError
  | slitherException (msg : String)
deriving DecidableEq, Repr

instance {ε α : Type} [DecidableEq ε] [DecidableEq α] : DecidableEq (Except ε α) :=
  fun a b =>
    match a, b with
    | Except.ok x, Except.ok y =>
      if h : x = y then isTrue (by rw [h]) else isFalse (by simp [h])
    | Except.error x, Except.error y =>
      if h : x = y then isTrue (by rw [h]) else isFalse (by simp [h])
    | Except.ok _, Except.error _ => isFalse (by simp)
    | Except.error _, Except.ok _ => isFalse (by simp)

/-! ### UTF-8 byte model

`Source.content` slices the UTF-8 byte encoding of the file text, and the
line-index provider is modelled over the same bytes.  `charUtf8` is the
standard 1-4 byte encoding of a Unicode scalar value; `utf8DecodeList` is
the strict decoder (as Python's `bytes.decode("utf8")`, it rejects
truncated sequences, overlong forms, surrogates and out-of-range
codepoints). -/

def charUtf8 (c : Char) : List Nat :=
  if c.toNat < 128 then [c.toNat]
  else if c.toNat < 2048 then [192 + c.toNat / 64, 128 + c.toNat % 64]
  else if c.toNat < 65536 then
    [224 + c.toNat / 4096, 128 + c.toNat / 64 % 64, 128 + c.toNat % 64]
  else
    [240 + c.toNat / 262144, 128 + c.toNat / 4096 % 64, 128 + c.toNat / 64 % 64,
      128 + c.toNat % 64]

def stringUtf8 (s : String) : List Nat :=
  s.data.flatMap charUtf8

/-- Byte length of the UTF-8 encoding of `s`. -/
def utf8Len (s : String) : Nat := (stringUtf8 s).length

def contByte (b : Nat) : Bool := 128 ≤ b && b < 192

/-- Decode one UTF-8 sequence from the front of the byte list: the
character and the remaining bytes, or `none` at the end of input or on an
ill-formed sequence (stray continuation, truncation, overlong form,
surrogate, out-of-range codepoint). -/
def utf8DecodeOne : List Nat → Option (Char × List Nat)
  | [] => none
  | b :: rest =>
    if b < 128 then some (Char.ofNat b, rest)
    else if b < 192 then none
    else if b < 224 then
      match rest with
      | c1 :: rest2 =>
        if contByte c1 then
          if 128 ≤ (b - 192) * 64 + (c1 - 128) then
            some (Char.ofNat ((b - 192) * 64 + (c1 - 128)), rest2)
          else none
        else none
      | [] => none
    else if b < 240 then
      match rest with
      | c1 :: c2 :: rest2 =>
        if contByte c1 && contByte c2 then
          if 2048 ≤ (b - 224) * 4096 + (c1 - 128) * 64 + (c2 - 128) &&
              !(decide (55296 ≤ (b - 224) * 4096 + (c1 - 128) * 64 + (c2 - 128)) &&
                decide ((b - 224) * 4096 + (c1 - 128) * 64 + (c2 - 128) < 57344)) then
            some (Char.ofNat ((b - 224) * 4096 + (c1 - 128) * 64 + (c2 - 128)), rest2)
          else none
        else none
      | _ => none
    else if b < 248 then
      match rest with
      | c1 :: c2 :: c3 :: rest2 =>
        if contByte c1 && contByte c2 && contByte c3 then
          if 65536 ≤ (b - 240) * 262144 + (c1 - 128) * 4096 + (c2 - 128) * 64 + (c3 - 128) &&
              (b - 240) * 262144 + (c1 - 128) * 4096 + (c2 - 128) * 64 + (c3 - 128) <
                1114112 then
            some
              (Char.ofNat
                ((b - 240) * 262144 + (c1 - 128) * 4096 + (c2 - 128) * 64 + (c3 - 128)),
                rest2)
          else none
        else none
      | _ => none
    else none

theorem utf8DecodeOne_rest_length {l : List Nat} {c : Char} {rest : List Nat}
    (h : utf8DecodeOne l = some (c, rest)) : rest.length < l.length := by
  unfold utf8DecodeOne at h
  repeat' split at h
  all_goals simp_all
  all_goals omega

/-- The strict decoder, with explicit fuel to make the recursion
structural: each step consumes at least one byte, so any `fuel` of at
least the byte count gives the untruncated result. -/
def utf8DecodeListFuel : Nat → List Nat → Option (List Char)
  | _, [] => some []
  | 0, _ :: _ => none
  | fuel + 1, l =>
    match utf8DecodeOne l with
    | some (c, rest) => (utf8DecodeListFuel fuel rest).map (fun cs => c :: cs)
    | none => none

/-- The strict decoder, as Python's `bytes.decode("utf8")`: all of the
input must decode. -/
def utf8DecodeList (l : List Nat) : Option (List Char) :=
  utf8DecodeListFuel l.length l

/-! ### The compilation-unit context

`SlitherCompilationUnit` and the parts of `crytic_compile` the module
consults.  `source_units` is the raw file-index table
(`compilation_unit.source_units`, a dict from int to filename-as-used);
`filename_lookup`, `is_dependency` and `source_code` are the
`crytic_compile` services.  The line-index provider
`get_line_from_offset` lives outside this repository; it is modelled from
the spec below. -/
structure CompilationUnit where
  source_units : Int → Option String
  filename_lookup : String → Filename
  is_dependency : String → Bool
  source_code : String → String

/-- 1-based line number of byte `offset`: one more than the number of
newline bytes (10) strictly before it. -/
def lineAt (bytes : List Nat) (offset : Nat) : Nat :=
  1 + (bytes.take offset).countP (fun b => b = 10)

/-- 1-based column of byte `offset`: bytes since the last newline, plus one. -/
def columnAt (bytes : List Nat) (offset : Nat) : Nat :=
  ((bytes.take offset).reverse.takeWhile (fun b => b ≠ 10)).length + 1

/-- Modelled from the spec: `crytic_compile.get_line_from_offset`
(`line_and_column_at` of §4.1), which is not part of this repository.
Per the spec it returns the 1-based line and column at a byte offset of
the file's text and fails (Python: raises `KeyError`) when the offset
falls outside the known file extent. -/
def getLineFromOffset (cu : CompilationUnit) (filename : Filename) (offset : Nat) :
    Option (Nat × Nat) :=
  let bytes := stringUtf8 (cu.source_code filename.absolute)
  if offset ≤ bytes.length then some (lineAt bytes offset, columnAt bytes offset)
  else none

/-! ### `Source` operations -/

/-- `Source.content` (lines 71-89): the file text, encoded as UTF-8
bytes, sliced `[start:end]` on the byte array, decoded back to text.
`none` models a `UnicodeDecodeError` (the slice not landing on character
boundaries). -/
def Source.content (src : Source) (cu : CompilationUnit) : Option String :=
  (utf8DecodeList
      (((stringUtf8 (cu.source_code src.filename.absolute)).drop src.start).take
        (src.end_ - src.start))).map
    (fun cs => String.mk cs)

/-- Hex digits, for the SHA-1 digest. -/
def hexDigits : List Char := "0123456789abcdef".data

def hexDigit (n : Nat) : Char := hexDigits.getD (n % 16) '0'

/-- A 32-bit word as exactly eight hex digits (big-endian nibbles). -/
def to8Hex (w : Nat) : List Char :=
  [hexDigit (w / 268435456), hexDigit (w / 16777216), hexDigit (w / 1048576),
   hexDigit (w / 65536), hexDigit (w / 4096), hexDigit (w / 256),
   hexDigit (w / 16), hexDigit w]

def rotl32 (n x : Nat) : Nat :=
  ((x <<< n) % 4294967296) ||| (x >>> (32 - n))

def not32 (x : Nat) : Nat := 4294967295 - x % 4294967296

/-- SHA-1 padding: `0x80`, zeros to 56 mod 64, then the 64-bit big-endian
bit length. -/
def sha1Pad (msg : List Nat) : List Nat :=
  let bitLen := msg.length * 8
  msg ++ 128 :: List.replicate ((119 - msg.length % 64) % 64) 0 ++
    [bitLen >>> 56 % 256, bitLen >>> 48 % 256, bitLen >>> 40 % 256, bitLen >>> 32 % 256,
     bitLen >>> 24 % 256, bitLen >>> 16 % 256, bitLen >>> 8 % 256, bitLen % 256]

def chunks64 (l : List Nat) : List (List Nat) :=
  if l = [] then []
  else l.take 64 :: chunks64 (l.drop 64)
termination_by l.length
decreasing_by
  simp only [List.length_drop]
  cases l with
  | nil => simp_all
  | cons a t => simp only [List.length_cons]; omega

def blockWords (block : List Nat) : List Nat :=
  (List.range 16).map
    (fun i =>
      block.getD (4 * i) 0 * 16777216 + block.getD (4 * i + 1) 0 * 65536 +
        block.getD (4 * i + 2) 0 * 256 + block.getD (4 * i + 3) 0)

def extendWords (w : List Nat) : List Nat :=
  (List.range 64).foldl
    (fun w _ =>
      let n := w.length
      w ++ [rotl32 1 (w.getD (n - 3) 0 ^^^ w.getD (n - 8) 0 ^^^ w.getD (n - 14) 0 ^^^
        w.getD (n - 16) 0)])
    w

def sha1Round (w : List Nat) (st : Nat × Nat × Nat × Nat × Nat) (i : Nat) :
    Nat × Nat × Nat × Nat × Nat :=
  let (a, b, c, d, e) := st
  let fk : Nat × Nat :=
    if i < 20 then ((b &&& c) ||| (not32 b &&& d), 1518500249)
    else if i < 40 then (b ^^^ c ^^^ d, 1859775393)
    else if i < 60 then ((b &&& c) ||| (b &&& d) ||| (c &&& d), 2400959708)
    else (b ^^^ c ^^^ d, 3395469782)
  let temp := (rotl32 5 a + fk.1 + e + fk.2 + w.getD i 0) % 4294967296
  (temp, a, rotl32 30 b, c, d)

def sha1Compress (h : Nat × Nat × Nat × Nat × Nat) (block : List Nat) :
    Nat × Nat × Nat × Nat × Nat :=
  let w := extendWords (blockWords block)
  let (a, b, c, d, e) := (List.range 80).foldl (sha1Round w) h
  let (h0, h1, h2, h3, h4) := h
  ((h0 + a) % 4294967296, (h1 + b) % 4294967296, (h2 + c) % 4294967296,
    (h3 + d) % 4294967296, (h4 + e) % 4294967296)

/-- Modelled from the spec: the 160-bit hashing primitive
(`Crypto.Hash.SHA1` of pycryptodome, an external library).  This is the
standard SHA-1 over a byte list, serialized as 40 hex characters. -/
def sha1Hex (msg : List Nat) : String :=
  match (chunks64 (sha1Pad msg)).foldl sha1Compress
      (1732584193, 4023233417, 2562383102, 271733878, 3285377520) with
  | (h0, h1, h2, h3, h4) =>
    String.mk (to8Hex h0 ++ to8Hex h1 ++ to8Hex h2 ++ to8Hex h3 ++ to8Hex h4)

/-- `Source.content_hash` (lines 91-101): `sha1(content.encode("utf8"))`
as a hex digest; fails exactly when `content` fails. -/
def Source.content_hash (src : Source) (cu : CompilationUnit) : Option String :=
  (src.content cu).map (fun s => sha1Hex (stringUtf8 s))

/-- The tuple `Source.__hash__` (lines 108-116) hashes:
`(self.start, self.length, self.filename.relative, self.end)`.  Python
applies its builtin tuple hash to this key; two sources have equal hashes
exactly when the keys agree (up to the builtin's collisions), so the key
itself stands in for the hash value. -/
def Source.hashKey (src : Source) : Nat × Nat × String × Nat :=
  (src.start, src.length, src.filename.relative, src.end_)

/-- The comparison body of `Source.__eq__` (lines 120-125) between two
spans: `start`, `filename.relative`, `is_dependency` and `end` must
match; `length` is not compared. -/
def Source.beq (self other : Source) : Bool :=
  self.start == other.start && self.filename.relative == other.filename.relative &&
    self.is_dependency == other.is_dependency && self.end_ == other.end_

/-- A Python object as seen by `Source.__eq__`: each attribute the
comparison reads may be present or absent (`none` = reading it raises
`AttributeError`).  The chain `other.filename.relative` is collapsed to
one optional attribute. -/
structure PyObj where
  start : Option Nat
  filename_relative : Option String
  is_dependency : Option Bool
  end_ : Option Nat

inductive AttrError where
  | attributeError
deriving DecidableEq, Repr

/-- Python's `NotImplemented` versus a boolean comparison result. -/
inductive EqResult where
  | bool (b : Bool)
  | notImplemented
deriving DecidableEq, Repr

def getattr : Option α → Except AttrError α
  | some v => Except.ok v
  | none => Except.error AttrError.attributeError

/-- The `try` body of `Source.__eq__` (lines 120-125): the `and` chain
evaluates left to right, short-circuiting on the first mismatch, and
raises `AttributeError` at the first absent attribute it reads. -/
def Source.eqBody (self : Source) (other : PyObj) : Except AttrError Bool := do
  let os ← getattr other.start
  if self.start == os then
    let orel ← getattr other.filename_relative
    if self.filename.relative == orel then
      let od ← getattr other.is_dependency
      if self.is_dependency == od then
        let oe ← getattr other.end_
        return (self.end_ == oe)
      else return false
    else return false
  else return false

/-- `Source.__eq__` (lines 118-127): the body wrapped in
`try ... except AttributeError: return NotImplemented`. -/
def Source.eqPy (self : Source) (other : PyObj) : EqResult :=
  match Source.eqBody self other with
  | Except.ok b => EqResult.bool b
  | Except.error _ => EqResult.notImplemented

/-! ### The regex scan

`_convert_source_mapping` calls
`re.findall("([0-9]*):([0-9]*):([-]?[0-9]*)", offset)`.  The pattern is
deterministic: each `[0-9]*` is a maximal digit run that must be followed
by the literal `:` (shortening the run cannot help, since the next
character would still be a digit), and the final `[-]?[0-9]*` greedily
takes an optional minus and a maximal digit run.  `matchTripleAt` is this
match attempt at one position; `findTriples` is `findall`'s left-to-right
scan, resuming after each match (a match spans at least the two colons,
so it is never empty). -/

def takeDigits : List Char → List Char × List Char
  | [] => ([], [])
  | c :: t =>
    if c.isDigit then
      let (a, b) := takeDigits t
      (c :: a, b)
    else ([], c :: t)

theorem takeDigits_snd_length (l : List Char) : (takeDigits l).2.length ≤ l.length := by
  induction l with
  | nil => simp [takeDigits]
  | cons c t ih =>
    simp only [takeDigits]
    by_cases h : c.isDigit <;> simp [h] <;> omega

def matchTripleAt (l : List Char) : Option ((String × String × String) × List Char) :=
  match takeDigits l with
  | (g1, ':' :: r2) =>
    match takeDigits r2 with
    | (g2, ':' :: r4) =>
      match r4 with
      | '-' :: r5 =>
        match takeDigits r5 with
        | (g3, r6) => some ((String.mk g1, String.mk g2, String.mk ('-' :: g3)), r6)
      | _ =>
        match takeDigits r4 with
        | (g3, r6) => some ((String.mk g1, String.mk g2, String.mk g3), r6)
    | _ => none
  | _ => none

theorem takeDigits_eq_cons_length {l : List Char} {g : List Char} {c : Char}
    {r : List Char} (h : takeDigits l = (g, c :: r)) : r.length < l.length := by
  have h2 := takeDigits_snd_length l
  rw [h] at h2
  simp only [List.length_cons] at h2
  omega

theorem takeDigits_eq_length {l : List Char} {g r : List Char}
    (h : takeDigits l = (g, r)) : r.length ≤ l.length := by
  have h2 := takeDigits_snd_length l
  rw [h] at h2
  exact h2

theorem matchTripleAt_rest_length {l : List Char} {g : String × String × String}
    {rest : List Char} (h : matchTripleAt l = some (g, rest)) :
    rest.length < l.length := by
  unfold matchTripleAt at h
  split at h
  · rename_i g1 r2 h1
    split at h
    · rename_i g2 r4 h2
      split at h
      · rename_i r5
        split at h
        rename_i g3 r6 h3
        simp only [Option.some.injEq, Prod.mk.injEq] at h
        have e1 := takeDigits_eq_cons_length h1
        have e2 := takeDigits_eq_cons_length h2
        have e3 := takeDigits_eq_length h3
        rw [h.2] at e3
        simp only [List.length_cons] at e2
        omega
      · rename_i hnotdash
        split at h
        rename_i g3 r6 h3
        simp only [Option.some.injEq, Prod.mk.injEq] at h
        have e1 := takeDigits_eq_cons_length h1
        have e2 := takeDigits_eq_cons_length h2
        have e3 := takeDigits_eq_length h3
        rw [h.2] at e3
        omega
    · exact absurd h (by simp)
  · exact absurd h (by simp)

/-- The scan loop of `findall`, with explicit fuel to make the recursion
structural: a successful match consumes at least two characters (the two
colons, see `matchTripleAt_rest_length`) and a failed one advances by
one, so any `fuel` of at least the character count gives the full scan. -/
def findTriplesAux : Nat → List Char → List (String × String × String)
  | _, [] => []
  | 0, _ :: _ => []
  | fuel + 1, l =>
    match matchTripleAt l with
    | some (g, rest) => g :: findTriplesAux fuel rest
    | none =>
      match l with
      | [] => []
      | _ :: t => findTriplesAux fuel t

/-- `re.findall` of the triple pattern over the raw string. -/
def findTriples (offset : String) : List (String × String × String) :=
  findTriplesAux offset.data.length offset.data

/-! ### `int()` conversion

`int(s)` on the captured groups: groups 1 and 2 are digit runs (possibly
empty), group 3 is an optional minus then a digit run.  Python raises
`ValueError` on `""` and on `"-"`. -/

def digitsToNat (l : List Char) : Nat :=
  l.foldl (fun acc c => acc * 10 + (c.toNat - 48)) 0

/-- `int()` of a (possibly empty) digit-run group: `ValueError` on `""`. -/
def pyNat? (s : String) : Option Nat :=
  match s.data with
  | [] => none
  | l => some (digitsToNat l)

/-- `int()` of the `[-]?[0-9]*` group: `ValueError` on `""` and `"-"`. -/
def pyInt? (s : String) : Option Int :=
  match s.data with
  | [] => none
  | '-' :: t => if t = [] then none else some (-(digitsToNat t : Int))
  | l => some (digitsToNat l)

/-! ### The decoder -/

/-- `_compute_line` (lines 130-157).  The first `get_line_from_offset`
call sits outside any `try`, so its failure is the raw `KeyError`; the
second call's `KeyError` is re-raised as `SlitherException` with the
stale-artifacts message naming `filename.short`. -/
def staleMessage (short : String) : String :=
  "The source code appears to be out of sync with the build artifacts on disk.\n        This discrepancy can occur after recent modifications to " ++
    short ++
    ". To resolve this\n        issue, consider executing the clean command of the build system (e.g. forge clean).\n        "

def computeLine (cu : CompilationUnit) (filename : Filename) (start length : Nat) :
    Except PyError (List Nat × Nat × Nat) :=
  match getLineFromOffset cu filename start with
  | none => Except.error PyError.keyError
  | some (start_line, starting_column) =>
    match getLineFromOffset cu filename (start + length) with
    | none => Except.error (PyError.slitherException (staleMessage filename.short))
    | some (end_line, ending_column) =>
      Except.ok (List.range' start_line (end_line + 1 - start_line), starting_column,
        ending_column)

/-- The numeric stage of `_convert_source_mapping` (lines 180-205), after
the triple has been parsed to integers `s`, `l`, `f`: the unresolved-file
branch (which leaves `end` at 0) and the fully resolved branch. -/
def decodePosition (s l : Nat) (f : Int) (cu : CompilationUnit) : Except PyError Source :=
  match cu.source_units f with
  | none => Except.ok { emptySource with start := s, length := l }
  | some filename_used =>
    let filename := cu.filename_lookup filename_used
    let is_dep := cu.is_dependency filename.absolute
    match computeLine cu filename s l with
    | Except.error e => Except.error e
    | Except.ok (lines, starting_column, ending_column) =>
      Except.ok
        { start := s, length := l, filename := filename, is_dependency := is_dep,
          lines := lines, starting_column := starting_column,
          ending_column := ending_column, end_ := s + l }

/-- `_convert_source_mapping` (lines 160-205): find the triple pattern in
the raw string; unless it occurs exactly once, return the all-default
span; otherwise convert the three groups with `int()` (`ValueError` on an
empty group) and decode the position. -/
def convertSourceMapping (offset : String) (cu : CompilationUnit) : Except PyError Source :=
  match findTriples offset with
  | [(sg, lg, fg)] =>
    match pyNat? sg, pyNat? lg, pyInt? fg with
    | some s, some l, some f => decodePosition s l f cu
    | _, _, _ => Except.error PyError.valueError
  | _ => Except.ok emptySource

/-- The spec's anchored input grammar `(\d*):(\d*):(-?\d*)` matched
against the whole string (its claimed `^...$` form): the deterministic
triple match must start at position 0 and consume the entire string. -/
def matchesAnchoredTriple (s : String) : Bool :=
  match matchTripleAt s.data with
  | some (_, []) => true
  | _ => false

/-! ### Concrete compilation units for the examples -/

/-- A compilation unit whose file-index table is empty: every file index
is unresolved. -/
def cuNone : CompilationUnit :=
  { source_units := fun _ => none, filename_lookup := fun _ => emptyFilename,
    is_dependency := fun _ => false, source_code := fun _ => "" }

def aSol : Filename := ⟨"a.sol", "a.sol", "a.sol", "a.sol"⟩

/-- A compilation unit with one file, index 0, holding two lines of five
bytes each (12 bytes of text in all). -/
def cuLine : CompilationUnit :=
  { source_units := fun f => if f = 0 then some "a.sol" else none,
    filename_lookup := fun _ => aSol,
    is_dependency := fun _ => false,
    source_code := fun _ => "line1\nline2\n" }

/-- A compilation unit with one file, index 0, whose text has been
truncated to three bytes (the stale-artifacts scenario). -/
def cuShort : CompilationUnit :=
  { source_units := fun f => if f = 0 then some "a.sol" else none,
    filename_lookup := fun _ => aSol,
    is_dependency := fun _ => false,
    source_code := fun _ => "abc" }

/-- A compilation unit with one file whose text starts with a two-byte
UTF-8 character (the Greek letter pi) ahead of ASCII content. -/
def cuPi : CompilationUnit :=
  { source_units := fun f => if f = 0 then some "a.sol" else none,
    filename_lookup := fun _ => aSol,
    is_dependency := fun _ => false,
    source_code := fun _ => "π=pi\nabc\n" }

/-- The span the unresolved-file branch of `_convert_source_mapping`
produces: `start` and `length` set, everything else (including `end`)
left at its default. -/
def spanUnresolved (s l : Nat) : Source :=
  { emptySource with start := s, length := l }

/-- A resolved-shape span: byte range 3-7, two populated columns. -/
def spanEqA : Source :=
  { emptySource with start := 3, length := 4, end_ := 7, starting_column := 1 }

/-- The same location as `spanEqA` but with a different column field, so
the two are equal under `Source.__eq__` without being identical. -/
def spanEqB : Source :=
  { emptySource with start := 3, length := 4, end_ := 7, starting_column := 9 }

/-- The byte-range span `[6, 8)` of the `cuPi` file: the two ASCII bytes
`ab` on its second line, preceded by a two-byte character. -/
def spanPiBytes : Source :=
  { emptySource with start := 6, end_ := 8, filename := aSol }

/-- Character-index slicing `text[start:end]` over the character
sequence: the incorrect alternative to byte slicing that the spec rules
out (compare `Source.content`). -/
def charSlice (text : String) (a b : Nat) : String :=
  String.mk ((text.data.drop a).take (b - a))

/-! ### Helper lemmas -/

/-- The line number is monotone in the byte offset: a later offset never
sits on an earlier line. -/
theorem lineAt_mono (bytes : List Nat) {a b : Nat} (h : a ≤ b) :
    lineAt bytes a ≤ lineAt bytes b := by
  unfold lineAt
  have e : bytes.take a = (bytes.take b).take a := by
    rw [List.take_take, min_eq_left h]
  rw [e]
  have hc := List.Sublist.countP_le (fun x => decide (x = 10))
    (List.take_sublist a (bytes.take b))
  omega

theorem range'_chain' (s n : Nat) :
    (List.range' s n).Chain' (fun a b => b = a + 1) := by
  induction n generalizing s with
  | zero => simp
  | succ n ih =>
    rw [List.range'_succ]
    rcases n with _ | n
    · simp
    · rw [List.range'_succ]
      exact List.Chain'.cons rfl (List.range'_succ (s + 1) n 1 ▸ ih (s + 1))

theorem range'_sorted (s n : Nat) : (List.range' s n).Pairwise (· < ·) := by
  rw [← List.chain'_iff_pairwise]
  exact (range'_chain' s n).imp (fun h => by omega)

/-- Reading a valid offset through the modelled line provider pins down
the returned line and column and bounds the offset. -/
theorem getLineFromOffset_eq {cu : CompilationUnit} {fn : Filename} {o li co : Nat}
    (h : getLineFromOffset cu fn o = some (li, co)) :
    o ≤ (stringUtf8 (cu.source_code fn.absolute)).length ∧
      li = lineAt (stringUtf8 (cu.source_code fn.absolute)) o := by
  unfold getLineFromOffset at h
  simp only [] at h
  split at h
  · rename_i hle
    simp only [Option.some.injEq, Prod.mk.injEq] at h
    exact ⟨hle, h.1.symm⟩
  · exact absurd h (by simp)

theorem charUtf8_length_pos (c : Char) : 1 ≤ (charUtf8 c).length := by
  unfold charUtf8
  split <;> try split
  all_goals try split
  all_goals simp

/-- Decoding the encoding of one character consumes exactly its bytes
and recovers the character. -/
theorem utf8DecodeOne_charUtf8 (c : Char) (rest : List Nat) :
    utf8DecodeOne (charUtf8 c ++ rest) = some (c, rest) := by
  have hv : c.toNat < 55296 ∨ (57344 ≤ c.toNat ∧ c.toNat < 1114112) := c.valid
  have hofn : Char.ofNat c.toNat = c := Char.ofNat_toNat c
  by_cases h1 : c.toNat < 128
  · rw [show charUtf8 c = [c.toNat] from by rw [charUtf8, if_pos h1]]
    rw [List.cons_append, List.nil_append, utf8DecodeOne.eq_def]
    simp only []
    rw [if_pos h1, hofn]
  by_cases h2 : c.toNat < 2048
  · rw [show charUtf8 c = [192 + c.toNat / 64, 128 + c.toNat % 64] from by
      rw [charUtf8, if_neg h1, if_pos h2]]
    simp only [List.cons_append, List.nil_append]
    rw [utf8DecodeOne.eq_def]
    try simp only []
    rw [if_neg (by omega), if_neg (by omega), if_pos (by omega)]
    try simp only []
    rw [show contByte (128 + c.toNat % 64) = true from by
      simp only [contByte, Bool.and_eq_true, decide_eq_true_eq]
      omega]
    simp only [if_true]
    rw [show (192 + c.toNat / 64 - 192) * 64 + (128 + c.toNat % 64 - 128) = c.toNat from by
      omega]
    rw [if_pos (by omega), hofn]
  by_cases h3 : c.toNat < 65536
  · rw [show charUtf8 c =
        [224 + c.toNat / 4096, 128 + c.toNat / 64 % 64, 128 + c.toNat % 64] from by
      rw [charUtf8, if_neg h1, if_neg h2, if_pos h3]]
    simp only [List.cons_append, List.nil_append]
    rw [utf8DecodeOne.eq_def]
    try simp only []
    rw [if_neg (by omega), if_neg (by omega), if_neg (by omega), if_pos (by omega)]
    try simp only []
    rw [show (contByte (128 + c.toNat / 64 % 64) && contByte (128 + c.toNat % 64)) = true
        from by
      simp only [contByte, Bool.and_eq_true, decide_eq_true_eq]
      omega]
    simp only [if_true]
    have harith : (224 + c.toNat / 4096 - 224) * 4096 + (128 + c.toNat / 64 % 64 - 128) *
        64 + (128 + c.toNat % 64 - 128) = c.toNat := by omega
    rw [harith]
    rw [show (decide (2048 ≤ c.toNat) &&
        !(decide (55296 ≤ c.toNat) && decide (c.toNat < 57344))) = true from by
      simp only [Bool.and_eq_true, Bool.not_eq_true', Bool.and_eq_false_iff,
        decide_eq_true_eq, decide_eq_false_iff_not]
      omega]
    simp only [if_true]
    rw [hofn]
  · rw [show charUtf8 c =
        [240 + c.toNat / 262144, 128 + c.toNat / 4096 % 64, 128 + c.toNat / 64 % 64,
          128 + c.toNat % 64] from by
      rw [charUtf8, if_neg h1, if_neg h2, if_neg h3]]
    simp only [List.cons_append, List.nil_append]
    rw [utf8DecodeOne.eq_def]
    try simp only []
    rw [if_neg (by omega), if_neg (by omega), if_neg (by omega), if_neg (by omega),
      if_pos (by omega)]
    try simp only []
    rw [show (contByte (128 + c.toNat / 4096 % 64) && contByte (128 + c.toNat / 64 % 64) &&
        contByte (128 + c.toNat % 64)) = true from by
      simp only [contByte, Bool.and_eq_true, decide_eq_true_eq]
      omega]
    simp only [if_true]
    have harith : (240 + c.toNat / 262144 - 240) * 262144 +
        (128 + c.toNat / 4096 % 64 - 128) * 4096 + (128 + c.toNat / 64 % 64 - 128) * 64 +
        (128 + c.toNat % 64 - 128) = c.toNat := by omega
    rw [harith]
    rw [show (decide (65536 ≤ c.toNat) && decide (c.toNat < 1114112)) = true from by
      simp only [Bool.and_eq_true, decide_eq_true_eq]
      omega]
    simp only [if_true]
    rw [hofn]

theorem utf8DecodeListFuel_flatMap (cs : List Char) :
    ∀ fuel, (cs.flatMap charUtf8).length ≤ fuel →
      utf8DecodeListFuel fuel (cs.flatMap charUtf8) = some cs := by
  induction cs with
  | nil =>
    intro fuel _
    simp [utf8DecodeListFuel]
  | cons c t ih =>
    intro fuel hf
    have hb : 1 ≤ (charUtf8 c).length := charUtf8_length_pos c
    rw [List.flatMap_cons] at hf ⊢
    have hlen : (charUtf8 c ++ t.flatMap charUtf8).length =
        (charUtf8 c).length + (t.flatMap charUtf8).length := List.length_append _ _
    rcases fuel with _ | f
    · omega
    rcases hsh : charUtf8 c ++ t.flatMap charUtf8 with _ | ⟨b, bs⟩
    · rw [hsh] at hlen
      simp at hlen
      omega
    have hstep : utf8DecodeListFuel (f + 1) (b :: bs) =
        match utf8DecodeOne (b :: bs) with
        | some (c, rest) => (utf8DecodeListFuel f rest).map (fun cs => c :: cs)
        | none => none := rfl
    rw [hstep]
    rw [← hsh]
    rw [utf8DecodeOne_charUtf8]
    try simp only []
    rw [ih f (by omega)]
    rfl

/-- Round trip: decoding the UTF-8 encoding of any character sequence
succeeds and returns the sequence. -/
theorem utf8DecodeList_flatMap (cs : List Char) :
    utf8DecodeList (cs.flatMap charUtf8) = some cs :=
  utf8DecodeListFuel_flatMap cs _ (le_refl _)

theorem stringUtf8_append (a b : String) :
    stringUtf8 (a ++ b) = stringUtf8 a ++ stringUtf8 b := by
  unfold stringUtf8
  rw [String.data_append, List.flatMap_append]

theorem hexDigit_mem (n : Nat) : hexDigit n ∈ hexDigits := by
  unfold hexDigit
  have h : n % 16 < hexDigits.length := by
    have h16 : hexDigits.length = 16 := by decide
    have : n % 16 < 16 := Nat.mod_lt _ (by omega)
    omega
  rw [List.getD_eq_getElem _ _ h]
  exact List.getElem_mem h

theorem to8Hex_length (w : Nat) : (to8Hex w).length = 8 := rfl

theorem to8Hex_mem (w : Nat) : ∀ c ∈ to8Hex w, c ∈ hexDigits := by
  intro c hc
  unfold to8Hex at hc
  simp only [List.mem_cons, List.not_mem_nil, or_false] at hc
  rcases hc with rfl | rfl | rfl | rfl | rfl | rfl | rfl | rfl <;> exact hexDigit_mem _

/-- The SHA-1 hex digest is always exactly 40 hexadecimal characters
(160 bits). -/
theorem sha1Hex_length (msg : List Nat) :
    (sha1Hex msg).length = 40 ∧ ∀ c ∈ (sha1Hex msg).data, c ∈ hexDigits := by
  unfold sha1Hex
  rcases (chunks64 (sha1Pad msg)).foldl sha1Compress
      (1732584193, 4023233417, 2562383102, 271733878, 3285377520) with
    ⟨h0, h1, h2, h3, h4⟩
  constructor
  · simp [String.length, to8Hex]
  · intro c hc
    simp only [String.data] at hc
    simp only [List.mem_append] at hc
    rcases hc with ((((hc | hc) | hc) | hc) | hc) <;> exact to8Hex_mem _ c hc

/-! ### Claim C5 -/

/-- Claim C5: for every well-formed triple `(s, l, f)` whose file index
`f` is absent from the file-index table, decoding returns (not fails) a
span with `start = s`, `length = l`, `end` left at its zero default,
empty file identity, empty lines and zero columns; in particular
decoding the raw string `"10:5:999"` against a table without index 999
yields that span with `start = 10`, `length = 5`. -/
theorem c5_unresolved_file_span :
    (∀ (cu : CompilationUnit) (s l : Nat) (f : Int), cu.source_units f = none →
      decodePosition s l f cu = Except.ok (spanUnresolved s l)) ∧
    (∀ cu : CompilationUnit, cu.source_units 999 = none →
      convertSourceMapping "10:5:999" cu = Except.ok (spanUnresolved 10 5)) ∧
    (∀ s l : Nat, (spanUnresolved s l).start = s ∧ (spanUnresolved s l).length = l ∧
      (spanUnresolved s l).end_ = 0 ∧ (spanUnresolved s l).filename = emptyFilename ∧
      (spanUnresolved s l).lines = [] ∧ (spanUnresolved s l).starting_column = 0 ∧
      (spanUnresolved s l).ending_column = 0) := by
  have base : ∀ (cu : CompilationUnit) (s l : Nat) (f : Int), cu.source_units f = none →
      decodePosition s l f cu = Except.ok (spanUnresolved s l) := by
    intro cu s l f h
    unfold decodePosition
    rw [h]
    rfl
  refine ⟨base, ?_, ?_⟩
  · intro cu h
    have e : convertSourceMapping "10:5:999" cu = decodePosition 10 5 999 cu := rfl
    rw [e]
    exact base cu 10 5 999 h
  · intro s l
    exact ⟨rfl, rfl, rfl, rfl, rfl, rfl, rfl⟩

/-- Witness for C5 at the concrete input of the claim: the table of
`cuNone` has no index 999, and decoding `"10:5:999"` yields the
unresolved span with `start = 10`, `length = 5`. -/
theorem c5_unresolved_file_span_witness :
    convertSourceMapping "10:5:999" cuNone = Except.ok (spanUnresolved 10 5) :=
  c5_unresolved_file_span.2.1 cuNone rfl

/-! ### Claim C6 -/

/-- Claim C6 counterexample: the raw string `"x1:2:3"` does not match the
anchored grammar (it has a surrounding character), yet decoding does not
return the all-default span: the unanchored `re.findall` scan still finds
the triple `1:2:3` inside it, and the result carries `start = 1`,
`length = 2`. -/
theorem c6_unanchored_counterexample :
    matchesAnchoredTriple "x1:2:3" = false ∧
    convertSourceMapping "x1:2:3" cuNone = Except.ok (spanUnresolved 1 2) ∧
    spanUnresolved 1 2 ≠ emptySource := by
  refine ⟨by decide, by decide, by decide⟩

/-- Claim C6 (amended): the decoder's malformed-input guard is the
unanchored scan, not the anchored grammar: whenever the triple pattern
does not occur exactly once in the raw string — in particular for the
empty string — decoding returns the all-default span and never raises;
a string in which the pattern occurs exactly once is decoded from that
occurrence even when surrounded by extra characters. -/
theorem c6_malformed_default_amended (offset : String) (cu : CompilationUnit)
    (h : (findTriples offset).length ≠ 1) :
    convertSourceMapping offset cu = Except.ok emptySource := by
  unfold convertSourceMapping
  split
  · rename_i sg lg fg heq
    exact absurd (by rw [heq]; rfl) h
  · rfl

/-- Witness for the amended C6 at the empty string: no triple occurs in
`""`, and decoding yields the all-default span. -/
theorem c6_malformed_default_witness :
    convertSourceMapping "" cuNone = Except.ok emptySource :=
  c6_malformed_default_amended "" cuNone (by decide)

/-! ### Claim C7 -/

/-- Claim C7 counterexample: the triple `"10:5:"` has an empty fileIndex
component; the claim says it denotes "no file" and decoding returns a
span, but the code's `int("")` raises `ValueError` instead. -/
theorem c7_empty_component_counterexample :
    convertSourceMapping "10:5:" cuNone = Except.error PyError.valueError := by
  decide

/-- Claim C7 (amended): a fileIndex of `-1` (never a key of the table)
denotes "no file" and yields the unresolved span without failing, but an
empty start, length or fileIndex component does not denote zero: `int`
of an empty capture raises `ValueError`, so triples such as `"10:5:"`,
`":5:0"`, `"10::0"` and `"::"` make the decoder raise rather than return
a span. -/
theorem c7_empty_components_amended :
    (∀ cu : CompilationUnit, cu.source_units (-1) = none →
      convertSourceMapping "10:5:-1" cu = Except.ok (spanUnresolved 10 5)) ∧
    (∀ cu : CompilationUnit,
      convertSourceMapping "10:5:" cu = Except.error PyError.valueError) ∧
    (∀ cu : CompilationUnit,
      convertSourceMapping ":5:0" cu = Except.error PyError.valueError) ∧
    (∀ cu : CompilationUnit,
      convertSourceMapping "10::0" cu = Except.error PyError.valueError) ∧
    (∀ cu : CompilationUnit,
      convertSourceMapping "::" cu = Except.error PyError.valueError) := by
  refine ⟨?_, fun cu => rfl, fun cu => rfl, fun cu => rfl, fun cu => rfl⟩
  intro cu h
  have e : convertSourceMapping "10:5:-1" cu = decodePosition 10 5 (-1) cu := rfl
  rw [e]
  unfold decodePosition
  rw [h]
  rfl

/-- Witness for the amended C7: against the empty table, `"10:5:-1"`
decodes to the unresolved span. -/
theorem c7_empty_components_witness :
    convertSourceMapping "10:5:-1" cuNone = Except.ok (spanUnresolved 10 5) :=
  c7_empty_components_amended.1 cuNone rfl

/-! ### Claim C4 -/

/-- Claim C4 counterexample: on the unresolved-file branch the decoder
leaves `end` at 0 while setting `start` and `length`, so the produced
span violates `end == start + length`: decoding `"10:5:999"` against the
empty table gives `end = 0` but `start + length = 15`. -/
theorem c4_end_invariant_counterexample :
    convertSourceMapping "10:5:999" cuNone = Except.ok (spanUnresolved 10 5) ∧
    (spanUnresolved 10 5).end_ = 0 ∧
    (spanUnresolved 10 5).start + (spanUnresolved 10 5).length = 15 := by
  refine ⟨by decide, rfl, rfl⟩

/-- Claim C4 (amended): every span the decoder produces satisfies
`end == start + length` on the malformed-input branch (all fields zero)
and on the fully resolved branch; on the unresolved-file-index branch
`end` stays 0 while `start`/`length` are set, so there the invariant
holds only when `start + length = 0`. -/
theorem c4_end_invariant_amended (offset : String) (cu : CompilationUnit) (src : Source)
    (h : convertSourceMapping offset cu = Except.ok src) :
    src.end_ = src.start + src.length ∨
      (src.end_ = 0 ∧ src.filename = emptyFilename ∧ src.lines = []) := by
  unfold convertSourceMapping at h
  split at h
  · split at h
    · unfold decodePosition at h
      split at h
      · simp only [Except.ok.injEq] at h
        right
        rw [← h]
        exact ⟨rfl, rfl, rfl⟩
      · simp only [] at h
        split at h
        · exact absurd h (by simp)
        · simp only [Except.ok.injEq] at h
          left
          rw [← h]
    · exact absurd h (by simp)
  · simp only [Except.ok.injEq] at h
    left
    rw [← h]
    rfl

/-- Witness for the amended C4 at `"10:5:999"`: the decoded span falls
into the unresolved disjunct (`end = 0`, empty file, no lines). -/
theorem c4_end_invariant_witness :
    (spanUnresolved 10 5).end_ = (spanUnresolved 10 5).start + (spanUnresolved 10 5).length ∨
      ((spanUnresolved 10 5).end_ = 0 ∧ (spanUnresolved 10 5).filename = emptyFilename ∧
        (spanUnresolved 10 5).lines = []) :=
  c4_end_invariant_amended "10:5:999" cuNone (spanUnresolved 10 5) (by decide)

/-! ### Claim C2 -/

/-- Claim C2 counterexample: the file index 0 of `cuShort` is resolvable
and the START-offset lookup fails (offset 10 is beyond the 3-byte file),
yet decoding `"10:5:0"` surfaces the raw `KeyError` of the line lookup,
not a `SlitherException` (stale-artifacts) error: only the end-offset
lookup is wrapped by `_compute_line`. -/
theorem c2_stale_artifacts_counterexample :
    cuShort.source_units 0 = some "a.sol" ∧
    convertSourceMapping "10:5:0" cuShort = Except.error PyError.keyError := by
  refine ⟨rfl, by decide⟩

/-- Claim C2 (amended): for a resolvable file index, when the
start-offset lookup succeeds and the end-offset lookup fails, decoding
fails with the `SlitherException` stale-artifacts error whose message
names the file's short name; a failing start-offset lookup instead
propagates as the raw `KeyError`. -/
theorem c2_stale_artifacts_amended (cu : CompilationUnit) (s l : Nat) (f : Int)
    (fu : String) (sl sc : Nat)
    (h1 : cu.source_units f = some fu)
    (h2 : getLineFromOffset cu (cu.filename_lookup fu) s = some (sl, sc))
    (h3 : getLineFromOffset cu (cu.filename_lookup fu) (s + l) = none) :
    decodePosition s l f cu =
      Except.error
        (PyError.slitherException (staleMessage (cu.filename_lookup fu).short)) ∧
    ∃ pre post, staleMessage (cu.filename_lookup fu).short =
      pre ++ (cu.filename_lookup fu).short ++ post := by
  constructor
  · unfold decodePosition
    rw [h1]
    simp only []
    unfold computeLine
    rw [h2, h3]
  · exact ⟨_, _, rfl⟩

/-- Witness for the amended C2: in `cuLine` (12 bytes of text) the span
`10:5` has a valid start offset 10 and an invalid end offset 15, and
decoding fails with the stale-artifacts `SlitherException` naming
`a.sol`. -/
theorem c2_stale_artifacts_witness :
    decodePosition 10 5 0 cuLine =
      Except.error
        (PyError.slitherException (staleMessage (cuLine.filename_lookup "a.sol").short)) ∧
    ∃ pre post, staleMessage (cuLine.filename_lookup "a.sol").short =
      pre ++ (cuLine.filename_lookup "a.sol").short ++ post :=
  c2_stale_artifacts_amended cuLine 10 5 0 "a.sol" 2 5 rfl (by decide) (by decide)

/-! ### Claim C3 -/

/-- Claim C3: for every triple `(s, l, f)` with `f` resolvable and both
offset lookups succeeding, the decoded span has `start = s`,
`length = l`, `end = s + l`, and its lines sequence is non-empty,
strictly ascending, contiguous, starting at the line containing byte
offset `s` and ending at the line containing byte offset `s + l`. -/
theorem c3_resolved_decode (cu : CompilationUnit) (s l : Nat) (f : Int) (fu : String)
    (sl sc el ec : Nat)
    (h1 : cu.source_units f = some fu)
    (h2 : getLineFromOffset cu (cu.filename_lookup fu) s = some (sl, sc))
    (h3 : getLineFromOffset cu (cu.filename_lookup fu) (s + l) = some (el, ec)) :
    ∃ src, decodePosition s l f cu = Except.ok src ∧
      src.start = s ∧ src.length = l ∧ src.end_ = s + l ∧
      src.lines ≠ [] ∧ src.lines.head? = some sl ∧ src.lines.getLast? = some el ∧
      src.lines.Chain' (fun a b => b = a + 1) ∧ src.lines.Pairwise (· < ·) := by
  have hmono : sl ≤ el := by
    rw [(getLineFromOffset_eq h2).2, (getLineFromOffset_eq h3).2]
    exact lineAt_mono _ (Nat.le_add_right s l)
  unfold decodePosition
  rw [h1]
  simp only []
  unfold computeLine
  rw [h2, h3]
  refine ⟨_, rfl, rfl, rfl, rfl, ?_, ?_, ?_, ?_, ?_⟩
  · simp only [ne_eq, List.range'_eq_nil]
    omega
  · rw [List.head?_range', if_neg (by omega)]
  · rw [List.getLast?_range', if_neg (by omega)]
    have e : sl + (el + 1 - sl) - 1 = el := by omega
    rw [e]
  · exact range'_chain' sl (el + 1 - sl)
  · exact range'_sorted sl (el + 1 - sl)

/-- Witness for C3: decoding the triple `2:6` in file 0 of `cuLine`
(from byte 2 on line 1 to byte 8 on line 2). -/
theorem c3_resolved_decode_witness :
    ∃ src, decodePosition 2 6 0 cuLine = Except.ok src ∧
      src.start = 2 ∧ src.length = 6 ∧ src.end_ = 2 + 6 ∧
      src.lines ≠ [] ∧ src.lines.head? = some 1 ∧ src.lines.getLast? = some 2 ∧
      src.lines.Chain' (fun a b => b = a + 1) ∧ src.lines.Pairwise (· < ·) :=
  c3_resolved_decode cuLine 2 6 0 "a.sol" 1 3 2 3 rfl (by decide) (by decide)

/-! ### Claim C1 -/

/-- Claim C1 counterexample: the decoder can produce two spans from
unresolved file indices that are equal under `Source.__eq__` (same
`start`, `filename.relative`, `is_dependency` and `end`, the latter left
at 0 on that branch) while their hash inputs
`(start, length, file.relative, end)` differ, because the two spans carry
different lengths. -/
theorem c1_hash_eq_counterexample :
    convertSourceMapping "10:5:999" cuNone = Except.ok (spanUnresolved 10 5) ∧
    convertSourceMapping "10:7:999" cuNone = Except.ok (spanUnresolved 10 7) ∧
    Source.beq (spanUnresolved 10 5) (spanUnresolved 10 7) = true ∧
    Source.hashKey (spanUnresolved 10 5) ≠ Source.hashKey (spanUnresolved 10 7) := by
  refine ⟨by decide, by decide, by decide, by decide⟩

/-- Claim C1 (amended): for any two spans that satisfy the intended
invariant `end = start + length` (which holds on the malformed and fully
resolved decoding branches but not on the unresolved-file branch),
equality under `Source.__eq__` implies equal hash inputs
`(start, length, file.relative, end)`. -/
theorem c1_hash_eq_consistent_amended (a b : Source)
    (ha : a.end_ = a.start + a.length) (hb : b.end_ = b.start + b.length)
    (h : Source.beq a b = true) : Source.hashKey a = Source.hashKey b := by
  unfold Source.beq at h
  simp only [Bool.and_eq_true, beq_iff_eq] at h
  obtain ⟨⟨⟨h1, h2⟩, h3⟩, h4⟩ := h
  have hlen : a.length = b.length := by omega
  unfold Source.hashKey
  rw [h1, h2, h4, hlen]

/-- Witness for the amended C1: two spans over the same byte range 3-7
that differ only in a column field are `__eq__`-equal and have equal
hash inputs. -/
theorem c1_hash_eq_consistent_witness :
    Source.hashKey spanEqA = Source.hashKey spanEqB :=
  c1_hash_eq_consistent_amended spanEqA spanEqB rfl rfl (by decide)

/-! ### Claim C8 -/

/-- Claim C8: `content` slices the file's text on its UTF-8 BYTE array:
for any file text assembled as `pre ++ mid ++ post`, the span whose byte
range is exactly the bytes of `mid` has content `mid`; and concretely,
on the `cuPi` file (a two-byte character ahead of ASCII text) the byte
range `[6, 8)` yields exactly the ASCII substring `"ab"`, while
character-offset slicing at the same indices would yield a different,
shifted substring. -/
theorem c8_content_byte_slice :
    (∀ (pre mid post : String) (cu : CompilationUnit) (fn : Filename),
      cu.source_code fn.absolute = pre ++ mid ++ post →
      Source.content
        { emptySource with
          start := utf8Len pre, end_ := utf8Len pre + utf8Len mid, filename := fn } cu =
        some mid) ∧
    Source.content spanPiBytes cuPi = some "ab" ∧
    charSlice (cuPi.source_code aSol.absolute) spanPiBytes.start spanPiBytes.end_ ≠ "ab" := by
  refine ⟨?_, by decide, by decide⟩
  intro pre mid post cu fn h
  obtain ⟨cs⟩ := mid
  unfold Source.content
  simp only []
  rw [h]
  rw [stringUtf8_append, stringUtf8_append]
  rw [Nat.add_sub_cancel_left]
  unfold utf8Len
  rw [List.append_assoc, List.drop_left, List.take_left]
  unfold stringUtf8
  rw [utf8DecodeList_flatMap]
  rfl

/-- Witness for C8: the general byte-slicing conjunct applied to the
`cuPi` text split as `"π=pi\n" ++ "ab" ++ "c\n"`. -/
theorem c8_content_byte_slice_witness :
    Source.content
      { emptySource with
        start := utf8Len "π=pi\n", end_ := utf8Len "π=pi\n" + utf8Len "ab",
        filename := aSol } cuPi = some "ab" :=
  c8_content_byte_slice.1 "π=pi\n" "ab" "c\n" cuPi aSol (by decide)

/-! ### Claim C9 -/

/-- Claim C9: `content_hash` is deterministic — decoding the same raw
encoding twice against the same context gives spans with equal
`content_hash` values — and every produced value is a fixed-width
hexadecimal digest of 40 hex characters (160 bits) over the UTF-8 bytes
of `content`. -/
theorem c9_content_hash_deterministic :
    (∀ (raw : String) (cu : CompilationUnit) (a b : Source),
      convertSourceMapping raw cu = Except.ok a →
      convertSourceMapping raw cu = Except.ok b →
      Source.content_hash a cu = Source.content_hash b cu) ∧
    (∀ (src : Source) (cu : CompilationUnit) (s : String),
      Source.content src cu = some s →
      ∃ d, Source.content_hash src cu = some d ∧ d.length = 40 ∧
        ∀ c ∈ d.data, c ∈ hexDigits) := by
  constructor
  · intro raw cu a b ha hb
    rw [ha] at hb
    simp only [Except.ok.injEq] at hb
    rw [hb]
  · intro src cu s h
    refine ⟨sha1Hex (stringUtf8 s), ?_, (sha1Hex_length _).1, (sha1Hex_length _).2⟩
    unfold Source.content_hash
    rw [h]
    rfl

/-- Witness for C9: re-decoding `""` against `cuNone` twice gives spans
with the same `content_hash`, and the hash of the empty content is a
40-character hex digest. -/
theorem c9_content_hash_deterministic_witness :
    Source.content_hash emptySource cuNone = Source.content_hash emptySource cuNone ∧
    ∃ d, Source.content_hash emptySource cuNone = some d ∧ d.length = 40 ∧
      ∀ c ∈ d.data, c ∈ hexDigits :=
  ⟨c9_content_hash_deterministic.1 "" cuNone emptySource emptySource (by decide)
      (by decide),
    c9_content_hash_deterministic.2 emptySource cuNone "" (by decide)⟩

/-! ### Claim C10 -/

/-- Claim C10: comparing a span against any object through
`Source.__eq__` is total and never propagates the attribute failure: if
the comparison body raises `AttributeError` (the object lacks an
attribute the chain reads), the result is `NotImplemented`; an object
lacking all span attributes always compares to `NotImplemented`; and
every comparison returns either a boolean or `NotImplemented`. -/
theorem c10_eq_never_raises :
    (∀ (self : Source) (other : PyObj) (e : AttrError),
      Source.eqBody self other = Except.error e →
      Source.eqPy self other = EqResult.notImplemented) ∧
    (∀ self : Source,
      Source.eqPy self ⟨none, none, none, none⟩ = EqResult.notImplemented) ∧
    (∀ (self : Source) (other : PyObj),
      Source.eqPy self other = EqResult.notImplemented ∨
        ∃ b, Source.eqPy self other = EqResult.bool b) := by
  have wrap : ∀ (self : Source) (other : PyObj) (e : AttrError),
      Source.eqBody self other = Except.error e →
      Source.eqPy self other = EqResult.notImplemented := by
    intro self other e h
    unfold Source.eqPy
    rw [h]
  refine ⟨wrap, ?_, ?_⟩
  · intro self
    exact wrap self ⟨none, none, none, none⟩ AttrError.attributeError rfl
  · intro self other
    cases h : Source.eqBody self other with
    | ok b =>
      right
      exact ⟨b, by unfold Source.eqPy; rw [h]⟩
    | error e =>
      left
      exact wrap self other e h

/-- Witness for C10: the comparison body against an attribute-less
object raises `AttributeError` and `__eq__` returns `NotImplemented`. -/
theorem c10_eq_never_raises_witness :
    Source.eqPy emptySource ⟨none, none, none, none⟩ = EqResult.notImplemented :=
  c10_eq_never_raises.1 emptySource ⟨none, none, none, none⟩ AttrError.attributeError
    (by decide)

end SlitherSM
